import Mathlib

/-!
Verification of `reorth_mex.c` (PROPACK_SVT), the MATLAB gateway for the
iterated Gram-Schmidt reorthogonalization routine `reorth`, together with a
model of the numerical core.

Scalars are modelled as exact rationals `ℚ`.  The Euclidean norm computed by
the numerical code (BLAS `dnrm2`, a floating-point square root) has no exact
executable counterpart over `ℚ`, so the norm is abstracted as a parameter
`nrm : List ℚ → ℚ` of the core; every property verified here is independent
of the concrete norm function.
-/

attribute [local semireducible] Rat.add Rat.mul Rat.sub Rat.inv Rat.ofScientific

namespace Reorth

abbrev Scalar := ℚ

/-- Dot product of two coordinate lists. -/
def dot (x y : List Scalar) : Scalar :=
  (List.zipWith (fun a b => a * b) x y).sum

/-- Truncation toward zero, the effect of a C cast `(int)x` on a double. -/
def truncToInt (x : Scalar) : ℤ :=
  if 0 ≤ x then x.floor else -((-x).floor)

/-- A MATLAB `mxArray` holding an m×n real matrix in column-major order. -/
structure MxArray where
  m : ℕ
  n : ℕ
  data : List Scalar
  deriving DecidableEq, Repr

/-- mxGetScalar: the first stored entry. -/
def mxGetScalar (a : MxArray) : Scalar := a.data.headD 0

/-- The memory the core routine works on: the basis storage `V` (column-major,
leading dimension `ldv`), the vector `vnew` being reorthogonalized, and the
scratch buffer `work`. -/
structure CoreState where
  Vdata : List Scalar
  vnew : List Scalar
  work : List Scalar
  deriving DecidableEq, Repr

/-- Column number `idx` (1-based, MATLAB convention) of the basis storage:
`n` entries starting at offset `(idx-1)*ldv`. -/
def getCol (Vdata : List Scalar) (ldv n : ℕ) (idx : Scalar) : List Scalar :=
  (Vdata.drop ((truncToInt idx - 1).toNat * ldv)).take n

/-- One modified-Gram-Schmidt step: project the current vector on column
`idx` and subtract the projection immediately. -/
def mgsStep (ldv n : ℕ) (s : CoreState) (idx : Scalar) : CoreState :=
  let col := getCol s.Vdata ldv n idx
  let c := dot col s.vnew
  { s with vnew := List.zipWith (fun a b => b - c * a) col s.vnew }

/-- Modified Gram-Schmidt pass: sequential steps, each one seeing the
vector already updated by the previous ones. -/
def mgsPass (ldv n : ℕ) (index : List Scalar) (s : CoreState) : CoreState :=
  index.foldl (mgsStep ldv n) s

/-- Classical Gram-Schmidt pass: all projection coefficients are computed
against the original vector and stored in the scratch buffer, then the
weighted columns are subtracted in one batch. -/
def cgsPass (ldv n : ℕ) (index : List Scalar) (s : CoreState) : CoreState :=
  let coeffs := index.map (fun i => dot (getCol s.Vdata ldv n i) s.vnew)
  let v2 := (List.zip index coeffs).foldl
    (fun v p => List.zipWith (fun a b => b - p.2 * a) (getCol s.Vdata ldv n p.1) v)
    s.vnew
  { s with work := coeffs, vnew := v2 }

/-- One reorthogonalization pass; `method = 1` selects classical
Gram-Schmidt, `method = 0` modified Gram-Schmidt. -/
def onePass (method : ℤ) (ldv n : ℕ) (index : List Scalar) (s : CoreState) :
    CoreState :=
  if method == 1 then cgsPass ldv n index s else mgsPass ldv n index s

/-- Whether a selected (1-based) column index denotes a column lying fully
inside the basis storage. -/
def indexOK (Vlen ldv n : ℕ) (i : Scalar) : Bool :=
  decide (1 ≤ truncToInt i) && decide ((truncToInt i - 1).toNat * ldv + n ≤ Vlen)

/-- Dimension validation: the vector has the column length `n` and every
selected index is in the basis's bounds. -/
def dimsOK (Vlen ldv n vlen : ℕ) (index : List Scalar) : Bool :=
  (vlen == n) && index.all (indexOK Vlen ldv n)

inductive ReorthError where
  | dimensionMismatch
  | invalidArgument
  deriving DecidableEq, Repr

inductive CoreRes where
  | err (e : ReorthError)
  | ok (normOut : Scalar) (nre : ℕ)
  deriving DecidableEq, Repr

/-- Modelled from the spec: the core routine `reorth` is only declared in
`reorth_mex.c`; its definition (`reorth.c` / `reorth.f`) is not among the
sources.  Following the spec, the core validates its arguments
(`DimensionMismatch` for a vector/column length disagreement or an index out
of the basis's bounds, `InvalidArgument` for a method selector other than
MODIFIED = 0 or CLASSICAL = 1) before mutating anything, then performs one
Gram-Schmidt pass, accepts with `nre = 1` if the new norm is at least
`alpha` times the norm estimate, otherwise performs a second pass, accepts
with `nre = 2` if the new norm is at least `alpha` times the first pass's
norm, and otherwise zeroes the vector and returns norm `0` with `nre = 2`.
The state is returned alongside the result (on an error it is the input
state, untouched). -/
def reorth (nrm : List Scalar → Scalar) (ldv n : ℕ) (index : List Scalar)
    (alpha normvnew : Scalar) (method : ℤ) (s : CoreState) :
    CoreState × CoreRes :=
  if ¬ (dimsOK s.Vdata.length ldv n s.vnew.length index = true) then
    (s, CoreRes.err ReorthError.dimensionMismatch)
  else if ¬ ((method == 0 || method == 1) = true) then
    (s, CoreRes.err ReorthError.invalidArgument)
  else
    let s1 := onePass method ldv n index s
    let norm1 := nrm s1.vnew
    if alpha * normvnew ≤ norm1 then (s1, CoreRes.ok norm1 1)
    else
      let s2 := onePass method ldv n index s1
      let norm2 := nrm s2.vnew
      if alpha * norm1 ≤ norm2 then (s2, CoreRes.ok norm2 2)
      else ({ s2 with vnew := List.replicate n 0 }, CoreRes.ok 0 2)

inductive MexError where
  | argCount
  | outputCount
  | dimensionMismatch
  | invalidArgument
  deriving DecidableEq, Repr

def liftErr : ReorthError → MexError
  | ReorthError.dimensionMismatch => MexError.dimensionMismatch
  | ReorthError.invalidArgument => MexError.invalidArgument

/-- The six right-hand-side arguments of the gateway:
`[R_NEW,NORMR_NEW,NRE] = reorth(Q,R,NORMR,INDEX,ALPHA,METHOD)`. -/
structure MexInputs where
  Q : MxArray
  R : MxArray
  NORMR : MxArray
  INDEX : MxArray
  ALPHA : MxArray
  METHOD : MxArray
  deriving DecidableEq, Repr

/-- The gateway's observable result: the output buffers `plhs[0]` (the new
vector), `plhs[1]` (the new norm), `plhs[2]` (present only when more than two
outputs are requested), and the number of scratch allocations still live at
return (0 means all scratch was freed). -/
structure MexOutputs where
  r_new : List Scalar
  normr_new : Scalar
  nre : Option Scalar
  scratchLive : ℕ
  deriving DecidableEq, Repr

inductive MexResult where
  | err (e : MexError)
  | ok (inputsAfter : MexInputs) (outs : MexOutputs)
  deriving DecidableEq, Repr

/-- Index-argument resolution (lines 96-108 of `reorth_mex.c`): when the
INDEX argument is empty, the gateway allocates a fresh 1-based list
`[1, ..., k1]` over all `k1` columns of `Q` and sets `k = k1`; otherwise it
uses the INDEX data as given with `k` = its element count.  Returns the
column-index list, `k`, and the `DEFAULT_INDEX` flag. -/
def resolveIndex (p : MexInputs) : List Scalar × ℕ × Bool :=
  let k1 := p.Q.n
  let k0 := p.INDEX.m * p.INDEX.n
  if k0 == 0 then
    ((List.range k1).map (fun i => ((i : Scalar) + 1)), k1, true)
  else
    (p.INDEX.data, k0, false)

def mexColumnIndex (p : MexInputs) : List Scalar := (resolveIndex p).1

def mexK (p : MexInputs) : ℕ := (resolveIndex p).2.1

def mexDefault (p : MexInputs) : Bool := (resolveIndex p).2.2

/-- The scratch buffer `work = mxCalloc(k, sizeof(double))`: `k` zeros. -/
def mexWork (p : MexInputs) : List Scalar := List.replicate (mexK p) 0

/-- The scratch-allocation ledger of one gateway call: `columnIndex` is
allocated when `DEFAULT_INDEX` is set (line 101), `work` is always allocated
(line 116); `work` is freed at line 143 and `columnIndex`, when it was
allocated, at lines 144-145.  The value is the number of scratch allocations
still live when the gateway returns. -/
def scratchLedger (defaultIndex : Bool) : ℕ :=
  let live0 : ℕ := 0
  let live1 := if defaultIndex then live0 + 1 else live0
  let live2 := live1 + 1
  let live3 := live2 - 1
  let live4 := if defaultIndex then live3 - 1 else live3
  live4

/-- The core invocation made by the gateway (lines 125-139): `n = LDV` is the
row count of `Q`, the index list is the resolved one (the core reads `k`
entries of it), `alpha` is read from the ALPHA argument's storage, the norm
estimate is the value copied from NORMR into `plhs[1]`, the method selector
is `(int) mxGetScalar(prhs[5])`, and the state is the basis storage of `Q`
(passed by pointer, not copied), the copy of the first `n` entries of `R`
placed in `plhs[0]`, and the zeroed scratch buffer. -/
def mexCoreCall (nrm : List Scalar → Scalar) (p : MexInputs) :
    CoreState × CoreRes :=
  reorth nrm p.Q.m p.Q.m ((mexColumnIndex p).take (mexK p))
    (p.ALPHA.data.headD 0) (p.NORMR.data.headD 0)
    (truncToInt (mxGetScalar p.METHOD))
    ⟨p.Q.data, p.R.data.take p.Q.m, mexWork p⟩

/-- The gateway `mexFunction` of `reorth_mex.c`.  It rejects a call without
exactly 6 inputs or with fewer than 2 outputs, resolves the index argument,
copies the vector and its norm into freshly allocated output buffers, calls
the core on those copies, and, when a third output is requested, stores
`(double) inre * k` in it.  The returned `inputsAfter` reflects the caller's
argument storage after the call (the basis storage of `Q` was handed to the
core by pointer). -/
def mexFunction (nrm : List Scalar → Scalar) (nrhs nlhs : ℕ)
    (p : MexInputs) : MexResult :=
  if nrhs != 6 then MexResult.err MexError.argCount
  else if nlhs < 2 then MexResult.err MexError.outputCount
  else
    match mexCoreCall nrm p with
    | (_, CoreRes.err e) => MexResult.err (liftErr e)
    | (s1, CoreRes.ok normOut inre) =>
        MexResult.ok { p with Q := { p.Q with data := s1.Vdata } }
          { r_new := s1.vnew
            normr_new := normOut
            nre := if 2 < nlhs then some ((inre : Scalar) * (mexK p : Scalar))
                   else none
            scratchLive := scratchLedger (mexDefault p) }

/-- Concrete stand-in norm used to instantiate the abstract `nrm` parameter
on concrete inputs: the sum of squares. -/
def sumSq (v : List Scalar) : Scalar := (v.map (fun x => x * x)).sum

def absQ (x : Scalar) : Scalar := if x < 0 then -x else x

/-- Concrete stand-in norm: absolute value of the first coordinate. -/
def headAbs (v : List Scalar) : Scalar := absQ (v.headD 0)

lemma mgsStep_Vdata (ldv n : ℕ) (s : CoreState) (i : Scalar) :
    (mgsStep ldv n s i).Vdata = s.Vdata := rfl

lemma mgsPass_Vdata (ldv n : ℕ) (index : List Scalar) :
    ∀ s : CoreState, (mgsPass ldv n index s).Vdata = s.Vdata := by
  induction index with
  | nil => intro s; rfl
  | cons i t ih =>
      intro s
      have h : mgsPass ldv n (i :: t) s = mgsPass ldv n t (mgsStep ldv n s i) := rfl
      rw [h, ih, mgsStep_Vdata]

lemma cgsPass_Vdata (ldv n : ℕ) (index : List Scalar) (s : CoreState) :
    (cgsPass ldv n index s).Vdata = s.Vdata := rfl

lemma onePass_Vdata (method : ℤ) (ldv n : ℕ) (index : List Scalar)
    (s : CoreState) : (onePass method ldv n index s).Vdata = s.Vdata := by
  unfold onePass
  by_cases h : (method == 1) = true
  · simp [h, cgsPass_Vdata]
  · simp [h, mgsPass_Vdata]

lemma reorth_fst_Vdata (nrm : List Scalar → Scalar) (ldv n : ℕ)
    (index : List Scalar) (alpha normvnew : Scalar) (method : ℤ)
    (s : CoreState) :
    (reorth nrm ldv n index alpha normvnew method s).1.Vdata = s.Vdata := by
  simp only [reorth]
  split_ifs <;> simp [onePass_Vdata]

lemma scratchLedger_eq_zero (b : Bool) : scratchLedger b = 0 := by
  cases b <;> rfl

/-- C3: every call performs at most two reorthogonalization passes (the
reported pass count is 1 or 2), and when the norm after the second pass is
still below `alpha` times the norm after the first pass, the vector is
zeroed entirely, the returned norm is 0, and the pass count is still 2. -/
theorem two_pass_policy (nrm : List Scalar → Scalar) (ldv n : ℕ)
    (index : List Scalar) (alpha normv : Scalar) (method : ℤ)
    (s : CoreState) :
    (∀ s2 ν nre, reorth nrm ldv n index alpha normv method s =
        (s2, CoreRes.ok ν nre) → 1 ≤ nre ∧ nre ≤ 2) ∧
    (dimsOK s.Vdata.length ldv n s.vnew.length index = true →
     (method == 0 || method == 1) = true →
     ¬ (alpha * normv ≤ nrm (onePass method ldv n index s).vnew) →
     ¬ (alpha * nrm (onePass method ldv n index s).vnew ≤
        nrm (onePass method ldv n index (onePass method ldv n index s)).vnew) →
     reorth nrm ldv n index alpha normv method s =
       ({ onePass method ldv n index (onePass method ldv n index s) with
            vnew := List.replicate n 0 }, CoreRes.ok 0 2)) := by
  constructor
  · intro s2 ν nre h
    simp only [reorth] at h
    split_ifs at h <;> simp_all <;> omega
  · intro hdim hm h1 h2
    simp only [reorth]
    split_ifs
    simp_all

/-- C3 witness: a concrete degenerate call (single column `[1/2]`, vector
`[1]`, `alpha = 1`) in which both ratio tests fail, returning the zero
vector, norm 0 and pass count 2. -/
theorem two_pass_policy_witness :
    (¬ ((1 : Scalar) * 1 ≤ headAbs
        (onePass 0 1 1 [(1 : Scalar)] ⟨[1/2], [1], [0]⟩).vnew)) ∧
    reorth headAbs 1 1 [(1 : Scalar)] 1 1 0 ⟨[1/2], [1], [0]⟩ =
      ({ onePass 0 1 1 [(1 : Scalar)]
           (onePass 0 1 1 [(1 : Scalar)] ⟨[1/2], [1], [0]⟩) with
         vnew := List.replicate 1 0 }, CoreRes.ok 0 2) ∧
    (1 ≤ 2 ∧ 2 ≤ 2) :=
  ⟨by decide,
   (two_pass_policy headAbs 1 1 [(1 : Scalar)] 1 1 0 ⟨[1/2], [1], [0]⟩).2
     (by decide) (by decide) (by decide) (by decide),
   (two_pass_policy headAbs 1 1 [(1 : Scalar)] 1 1 0 ⟨[1/2], [1], [0]⟩).1
     (⟨[1/2], [0], [0]⟩ : CoreState) 0 2 (by decide)⟩

/-- C6: the core surfaces every validation error before any mutation (on an
error the returned state is the input state, untouched), and once
validation has passed there are no further error paths: the two-pass loop
always completes and returns a result. -/
theorem validate_before_mutate (nrm : List Scalar → Scalar) (ldv n : ℕ)
    (index : List Scalar) (alpha normv : Scalar) (method : ℤ)
    (s : CoreState) :
    (∀ e, (reorth nrm ldv n index alpha normv method s).2 = CoreRes.err e →
      (reorth nrm ldv n index alpha normv method s).1 = s) ∧
    (dimsOK s.Vdata.length ldv n s.vnew.length index = true →
     (method == 0 || method == 1) = true →
     ∃ ν nre, (reorth nrm ldv n index alpha normv method s).2 =
       CoreRes.ok ν nre) := by
  constructor
  · intro e h
    simp only [reorth] at h ⊢
    split_ifs at h ⊢ <;> simp_all
  · intro hdim hm
    simp only [reorth]
    split_ifs <;> simp_all

/-- C6 witness: with an out-of-bounds index the core returns an error and
the state untouched; on a valid concrete call the result is `ok`. -/
theorem validate_before_mutate_witness :
    ((reorth sumSq 1 1 [(3 : Scalar)] 1 1 0 ⟨[5], [1], [0]⟩).1 =
      ⟨[5], [1], [0]⟩) ∧
    (∃ ν nre, (reorth sumSq 1 1 [(1 : Scalar)] (1/2) 1 0
        ⟨[0], [1], [0]⟩).2 = CoreRes.ok ν nre) :=
  ⟨(validate_before_mutate sumSq 1 1 [(3 : Scalar)] 1 1 0 ⟨[5], [1], [0]⟩).1
     ReorthError.dimensionMismatch (by decide),
   (validate_before_mutate sumSq 1 1 [(1 : Scalar)] (1/2) 1 0
     ⟨[0], [1], [0]⟩).2 (by decide) (by decide)⟩

/-- C7: the basis columns are only read and are unchanged after the call:
the core invocation leaves the basis storage exactly as it was, and on a
successful gateway call the `Q` argument is unchanged after the call
returns; only the vector and its reported norm appear among the outputs. -/
theorem basis_readonly (nrm : List Scalar → Scalar) (nlhs : ℕ)
    (p : MexInputs) :
    (mexCoreCall nrm p).1.Vdata = p.Q.data ∧
    (∀ q outs, mexFunction nrm 6 nlhs p = MexResult.ok q outs →
      q.Q = p.Q) := by
  have hV : (mexCoreCall nrm p).1.Vdata = p.Q.data :=
    reorth_fst_Vdata nrm p.Q.m p.Q.m _ _ _ _ _
  refine ⟨hV, fun q outs h => ?_⟩
  by_cases hn : nlhs < 2
  · simp [mexFunction, hn] at h
  · rcases hc : mexCoreCall nrm p with ⟨s1, r⟩
    cases r with
    | err e => simp [mexFunction, hn, hc] at h
    | ok ν nre =>
        rw [hc] at hV
        simp only [mexFunction, hn, if_false, bne_self_eq_false, hc,
          Bool.false_eq_true, if_neg] at h
        cases h
        simp at hV
        rw [hV]

/-- C7 witness: a concrete successful call in which the basis argument is
unchanged after the call. -/
theorem basis_readonly_witness :
    mexFunction sumSq 6 2
      ⟨⟨1, 1, [2]⟩, ⟨1, 1, [3]⟩, ⟨1, 1, [1]⟩, ⟨1, 1, [1]⟩,
       ⟨1, 1, [1/2]⟩, ⟨1, 1, [0]⟩⟩ =
      MexResult.ok
        ⟨⟨1, 1, [2]⟩, ⟨1, 1, [3]⟩, ⟨1, 1, [1]⟩, ⟨1, 1, [1]⟩,
         ⟨1, 1, [1/2]⟩, ⟨1, 1, [0]⟩⟩ ⟨[-9], 81, none, 0⟩ ∧
    (⟨⟨1, 1, [2]⟩, ⟨1, 1, [3]⟩, ⟨1, 1, [1]⟩, ⟨1, 1, [1]⟩,
      ⟨1, 1, [1/2]⟩, ⟨1, 1, [0]⟩⟩ : MexInputs).Q = ⟨1, 1, [2]⟩ :=
  ⟨by decide,
   (basis_readonly sumSq 2
      ⟨⟨1, 1, [2]⟩, ⟨1, 1, [3]⟩, ⟨1, 1, [1]⟩, ⟨1, 1, [1]⟩,
       ⟨1, 1, [1/2]⟩, ⟨1, 1, [0]⟩⟩).2
     ⟨⟨1, 1, [2]⟩, ⟨1, 1, [3]⟩, ⟨1, 1, [1]⟩, ⟨1, 1, [1]⟩,
      ⟨1, 1, [1/2]⟩, ⟨1, 1, [0]⟩⟩ ⟨[-9], 81, none, 0⟩ (by decide)⟩

/-- C9: the gateway never mutates the caller's arguments: the vector and its
norm are copied into freshly allocated output buffers, the core runs on the
copies, and after a successful call all of the caller's inputs are
unchanged; the returned vector is the core's result on the copied buffer. -/
theorem inputs_preserved (nrm : List Scalar → Scalar) (nlhs : ℕ)
    (p q : MexInputs) (outs : MexOutputs)
    (h : mexFunction nrm 6 nlhs p = MexResult.ok q outs) :
    q = p ∧ outs.r_new = (mexCoreCall nrm p).1.vnew := by
  have hV : (mexCoreCall nrm p).1.Vdata = p.Q.data :=
    reorth_fst_Vdata nrm p.Q.m p.Q.m _ _ _ _ _
  by_cases hn : nlhs < 2
  · simp [mexFunction, hn] at h
  · rcases hc : mexCoreCall nrm p with ⟨s1, r⟩
    cases r with
    | err e => simp [mexFunction, hn, hc] at h
    | ok ν nre =>
        rw [hc] at hV
        simp only [mexFunction, hn, if_false, bne_self_eq_false, hc,
          Bool.false_eq_true, if_neg] at h
        cases h
        simp at hV
        rw [hV]
        exact ⟨rfl, rfl⟩

/-- C9 witness: a concrete successful call (classical Gram-Schmidt) whose
inputs are all unchanged and whose output vector is the core's result. -/
theorem inputs_preserved_witness :
    mexFunction sumSq 6 2
      ⟨⟨1, 1, [2]⟩, ⟨1, 1, [3]⟩, ⟨1, 1, [1]⟩, ⟨1, 1, [1]⟩,
       ⟨1, 1, [1/2]⟩, ⟨1, 1, [1]⟩⟩ =
      MexResult.ok
        ⟨⟨1, 1, [2]⟩, ⟨1, 1, [3]⟩, ⟨1, 1, [1]⟩, ⟨1, 1, [1]⟩,
         ⟨1, 1, [1/2]⟩, ⟨1, 1, [1]⟩⟩ ⟨[-9], 81, none, 0⟩ ∧
    ((⟨⟨1, 1, [2]⟩, ⟨1, 1, [3]⟩, ⟨1, 1, [1]⟩, ⟨1, 1, [1]⟩,
       ⟨1, 1, [1/2]⟩, ⟨1, 1, [1]⟩⟩ : MexInputs) =
      ⟨⟨1, 1, [2]⟩, ⟨1, 1, [3]⟩, ⟨1, 1, [1]⟩, ⟨1, 1, [1]⟩,
       ⟨1, 1, [1/2]⟩, ⟨1, 1, [1]⟩⟩ ∧
     (⟨[-9], 81, none, 0⟩ : MexOutputs).r_new =
       (mexCoreCall sumSq
         ⟨⟨1, 1, [2]⟩, ⟨1, 1, [3]⟩, ⟨1, 1, [1]⟩, ⟨1, 1, [1]⟩,
          ⟨1, 1, [1/2]⟩, ⟨1, 1, [1]⟩⟩).1.vnew) :=
  ⟨by decide,
   inputs_preserved sumSq 2
     ⟨⟨1, 1, [2]⟩, ⟨1, 1, [3]⟩, ⟨1, 1, [1]⟩, ⟨1, 1, [1]⟩,
      ⟨1, 1, [1/2]⟩, ⟨1, 1, [1]⟩⟩
     ⟨⟨1, 1, [2]⟩, ⟨1, 1, [3]⟩, ⟨1, 1, [1]⟩, ⟨1, 1, [1]⟩,
      ⟨1, 1, [1/2]⟩, ⟨1, 1, [1]⟩⟩ ⟨[-9], 81, none, 0⟩ (by decide)⟩

/-- C2 counterexample: for a basis with two columns and an empty index
argument, the list the adapter builds is the 1-based `[1, 2]`
(`columnIndex[i] = i + 1`, MATLAB numbering), not the 0-based `[0, 1]`
stated by the claim. -/
theorem expand_index_cex :
    mexColumnIndex ⟨⟨1, 2, [3, 4]⟩, ⟨1, 1, [1]⟩, ⟨1, 1, [1]⟩, ⟨0, 0, []⟩,
      ⟨1, 1, [1/2]⟩, ⟨1, 1, [0]⟩⟩ = [1, 2] ∧
    ([1, 2] : List Scalar) ≠ [0, 1] := by decide

/-- C2 (amended): when the index argument is empty, the adapter expands it
to the explicit ordered 1-based list `[1, ..., k]` of all `k` column
positions before invoking the core, and the core itself never infers "all
columns": a pass over an empty index list performs no projection at all. -/
theorem expand_one_based (p : MexInputs)
    (hempty : p.INDEX.m * p.INDEX.n = 0) :
    mexColumnIndex p =
      (List.range p.Q.n).map (fun i => ((i : Scalar) + 1)) ∧
    mexK p = p.Q.n ∧
    (∀ method ldv n s, (onePass method ldv n [] s).vnew = s.vnew) := by
  refine ⟨?_, ?_, ?_⟩
  · simp [mexColumnIndex, resolveIndex, hempty]
  · simp [mexK, resolveIndex, hempty]
  · intro method ldv n s
    unfold onePass
    by_cases h : (method == 1) = true <;> simp [h, cgsPass, mgsPass]

/-- C2 witness: a concrete call with a 3-column basis and an empty index
argument, expanded to `[1, 2, 3]`. -/
theorem expand_one_based_witness :
    ((⟨⟨1, 3, [0, 0, 0]⟩, ⟨1, 1, [1]⟩, ⟨1, 1, [1]⟩, ⟨0, 5, []⟩,
       ⟨1, 1, [1/2]⟩, ⟨1, 1, [0]⟩⟩ : MexInputs).INDEX.m *
     (⟨⟨1, 3, [0, 0, 0]⟩, ⟨1, 1, [1]⟩, ⟨1, 1, [1]⟩, ⟨0, 5, []⟩,
       ⟨1, 1, [1/2]⟩, ⟨1, 1, [0]⟩⟩ : MexInputs).INDEX.n = 0) ∧
    (mexColumnIndex
       ⟨⟨1, 3, [0, 0, 0]⟩, ⟨1, 1, [1]⟩, ⟨1, 1, [1]⟩, ⟨0, 5, []⟩,
        ⟨1, 1, [1/2]⟩, ⟨1, 1, [0]⟩⟩ =
       (List.range 3).map (fun i => ((i : Scalar) + 1)) ∧
     mexK ⟨⟨1, 3, [0, 0, 0]⟩, ⟨1, 1, [1]⟩, ⟨1, 1, [1]⟩, ⟨0, 5, []⟩,
        ⟨1, 1, [1/2]⟩, ⟨1, 1, [0]⟩⟩ = 3 ∧
     (∀ method ldv n s, (onePass method ldv n [] s).vnew = s.vnew)) :=
  ⟨by decide,
   expand_one_based
     ⟨⟨1, 3, [0, 0, 0]⟩, ⟨1, 1, [1]⟩, ⟨1, 1, [1]⟩, ⟨0, 5, []⟩,
      ⟨1, 1, [1/2]⟩, ⟨1, 1, [0]⟩⟩ (by decide)⟩

/-- C4 counterexample: a call whose vector has 4 entries while the basis
columns have 3 does not fail: no vector-length check exists, the gateway
copies the basis-column count of entries from the vector and the call
succeeds. -/
theorem dimension_check_cex :
    mexFunction sumSq 6 2
      ⟨⟨3, 1, [1, 0, 0]⟩, ⟨4, 1, [1, 1, 0, 0]⟩, ⟨1, 1, [2]⟩, ⟨1, 1, [1]⟩,
       ⟨1, 1, [1/2]⟩, ⟨1, 1, [0]⟩⟩ =
      MexResult.ok
        ⟨⟨3, 1, [1, 0, 0]⟩, ⟨4, 1, [1, 1, 0, 0]⟩, ⟨1, 1, [2]⟩, ⟨1, 1, [1]⟩,
         ⟨1, 1, [1/2]⟩, ⟨1, 1, [0]⟩⟩ ⟨[0, 1, 0], 1, none, 0⟩ ∧
    (⟨4, 1, [1, 1, 0, 0]⟩ : MxArray).m ≠ (⟨3, 1, [1, 0, 0]⟩ : MxArray).m := by
  exact ⟨by decide, by decide⟩

/-- C4 (amended): a selected index out of the basis's bounds makes the call
fail with DimensionMismatch, surfaced immediately and not retried.  The
vector-length clause of the original claim is dropped: the gateway performs
no vector-length check. -/
theorem index_out_of_bounds_fails (nrm : List Scalar → Scalar) (nlhs : ℕ)
    (p : MexInputs) (h2 : 2 ≤ nlhs)
    (hbad : ((mexColumnIndex p).take (mexK p)).all
        (indexOK p.Q.data.length p.Q.m p.Q.m) = false) :
    mexFunction nrm 6 nlhs p = MexResult.err MexError.dimensionMismatch := by
  have hn : ¬ nlhs < 2 := by omega
  have hdim : dimsOK p.Q.data.length p.Q.m p.Q.m
      (p.Q.m ⊓ p.R.data.length)
      ((mexColumnIndex p).take (mexK p)) = false := by
    simp [dimsOK, hbad]
  simp [mexFunction, mexCoreCall, reorth, hn, hdim, liftErr]

/-- C4 witness: a concrete call selecting column 3 of a single-column basis
fails with DimensionMismatch. -/
theorem index_out_of_bounds_fails_witness :
    (2 ≤ 2 ∧
     ((mexColumnIndex ⟨⟨1, 1, [5]⟩, ⟨1, 1, [1]⟩, ⟨1, 1, [1]⟩, ⟨1, 1, [3]⟩,
         ⟨1, 1, [1/2]⟩, ⟨1, 1, [0]⟩⟩).take
       (mexK ⟨⟨1, 1, [5]⟩, ⟨1, 1, [1]⟩, ⟨1, 1, [1]⟩, ⟨1, 1, [3]⟩,
         ⟨1, 1, [1/2]⟩, ⟨1, 1, [0]⟩⟩)).all (indexOK 1 1 1) = false) ∧
    mexFunction sumSq 6 2
      ⟨⟨1, 1, [5]⟩, ⟨1, 1, [1]⟩, ⟨1, 1, [1]⟩, ⟨1, 1, [3]⟩,
       ⟨1, 1, [1/2]⟩, ⟨1, 1, [0]⟩⟩ =
      MexResult.err MexError.dimensionMismatch :=
  ⟨⟨by decide, by decide⟩,
   index_out_of_bounds_fails sumSq 2
     ⟨⟨1, 1, [5]⟩, ⟨1, 1, [1]⟩, ⟨1, 1, [1]⟩, ⟨1, 1, [3]⟩,
      ⟨1, 1, [1/2]⟩, ⟨1, 1, [0]⟩⟩ (by decide) (by decide)⟩

/-- C5: with a method selector that is neither MODIFIED (0) nor CLASSICAL
(1), a dimensionally valid call fails with InvalidArgument, surfaced
immediately. -/
theorem invalid_method_fails (nrm : List Scalar → Scalar) (nlhs : ℕ)
    (p : MexInputs) (h2 : 2 ≤ nlhs)
    (hdim : dimsOK p.Q.data.length p.Q.m p.Q.m
        (p.R.data.take p.Q.m).length
        ((mexColumnIndex p).take (mexK p)) = true)
    (hm : (truncToInt (mxGetScalar p.METHOD) == 0 ||
           truncToInt (mxGetScalar p.METHOD) == 1) = false) :
    mexFunction nrm 6 nlhs p = MexResult.err MexError.invalidArgument := by
  have hn : ¬ nlhs < 2 := by omega
  have hdim2 : dimsOK p.Q.data.length p.Q.m p.Q.m
      (p.Q.m ⊓ p.R.data.length)
      ((mexColumnIndex p).take (mexK p)) = true := by
    simpa using hdim
  have hm2 : ¬ truncToInt (mxGetScalar p.METHOD) = 0 ∧
      ¬ truncToInt (mxGetScalar p.METHOD) = 1 := by
    simpa using hm
  simp [mexFunction, mexCoreCall, reorth, hn, hdim2, hm2, liftErr]

/-- C5 witness: a concrete call with method selector 7 fails with
InvalidArgument. -/
theorem invalid_method_fails_witness :
    (2 ≤ 2 ∧
     (truncToInt (mxGetScalar (⟨1, 1, [7]⟩ : MxArray)) == 0 ||
      truncToInt (mxGetScalar (⟨1, 1, [7]⟩ : MxArray)) == 1) = false) ∧
    mexFunction sumSq 6 2
      ⟨⟨1, 1, [1]⟩, ⟨1, 1, [1]⟩, ⟨1, 1, [1]⟩, ⟨1, 1, [1]⟩,
       ⟨1, 1, [1/2]⟩, ⟨1, 1, [7]⟩⟩ =
      MexResult.err MexError.invalidArgument :=
  ⟨⟨by decide, by decide⟩,
   invalid_method_fails sumSq 2
     ⟨⟨1, 1, [1]⟩, ⟨1, 1, [1]⟩, ⟨1, 1, [1]⟩, ⟨1, 1, [1]⟩,
      ⟨1, 1, [1/2]⟩, ⟨1, 1, [7]⟩⟩ (by decide) (by decide) (by decide)⟩

/-- C10: the selected-column count `k` equals the element count of the
index argument when it is non-empty and the total basis column count when
it is empty; the scratch work buffer is allocated with exactly `k` zeroed
entries; and on every successful call no scratch allocation is live at
return. -/
theorem k_resolution_work (nrm : List Scalar → Scalar) (nlhs : ℕ)
    (p : MexInputs) :
    mexK p = (if p.INDEX.m * p.INDEX.n = 0 then p.Q.n
              else p.INDEX.m * p.INDEX.n) ∧
    mexWork p = List.replicate (mexK p) 0 ∧
    (mexWork p).length = mexK p ∧
    (∀ q outs, mexFunction nrm 6 nlhs p = MexResult.ok q outs →
      outs.scratchLive = 0) := by
  refine ⟨?_, rfl, by simp [mexWork], ?_⟩
  · simp only [mexK, resolveIndex]
    split <;> simp_all
  · intro q outs h
    by_cases hn : nlhs < 2
    · simp [mexFunction, hn] at h
    · rcases hc : mexCoreCall nrm p with ⟨s1, r⟩
      cases r with
      | err e => simp [mexFunction, hn, hc] at h
      | ok ν nre =>
          simp only [mexFunction, hn, if_false, bne_self_eq_false,
            Bool.false_eq_true, if_neg, hc] at h
          cases h
          simp [scratchLedger_eq_zero]

/-- C10 witness: a concrete successful call (empty index over a 1-column
basis, so k = 1) with no scratch allocation live at return. -/
theorem k_resolution_work_witness :
    mexFunction sumSq 6 2
      ⟨⟨1, 1, [0]⟩, ⟨1, 1, [1]⟩, ⟨1, 1, [1]⟩, ⟨0, 0, []⟩,
       ⟨1, 1, [1/2]⟩, ⟨1, 1, [0]⟩⟩ =
      MexResult.ok
        ⟨⟨1, 1, [0]⟩, ⟨1, 1, [1]⟩, ⟨1, 1, [1]⟩, ⟨0, 0, []⟩,
         ⟨1, 1, [1/2]⟩, ⟨1, 1, [0]⟩⟩ ⟨[1], 1, none, 0⟩ ∧
    (⟨[1], 1, none, 0⟩ : MexOutputs).scratchLive = 0 :=
  ⟨by decide,
   (k_resolution_work sumSq 2
      ⟨⟨1, 1, [0]⟩, ⟨1, 1, [1]⟩, ⟨1, 1, [1]⟩, ⟨0, 0, []⟩,
       ⟨1, 1, [1/2]⟩, ⟨1, 1, [0]⟩⟩).2.2.2
     ⟨⟨1, 1, [0]⟩, ⟨1, 1, [1]⟩, ⟨1, 1, [1]⟩, ⟨0, 0, []⟩,
      ⟨1, 1, [1/2]⟩, ⟨1, 1, [0]⟩⟩ ⟨[1], 1, none, 0⟩ (by decide)⟩

/-- Modelled from the spec: the caller-facing wrapper that makes ALPHA
optional is not among the sources (the gateway itself insists on all six
arguments); per the spec and the gateway's own doc comment, "The default
value for ALPHA is 0.5", so the wrapper fills in 1/2 when the caller gives
no alpha and then performs the gateway call. -/
def reorthOptionalAlpha (nrm : List Scalar → Scalar) (nlhs : ℕ)
    (Q R NORMR INDEX : MxArray) (alphaOpt : Option Scalar)
    (METHOD : MxArray) : MexResult :=
  mexFunction nrm 6 nlhs
    ⟨Q, R, NORMR, INDEX, ⟨1, 1, [alphaOpt.getD (1/2)]⟩, METHOD⟩

/-- C8: when alpha is unspecified by the caller, the threshold value 0.5 is
used: the call behaves exactly as the same call with alpha = 1/2 supplied
explicitly. -/
theorem default_alpha (nrm : List Scalar → Scalar) (nlhs : ℕ)
    (Q R NORMR INDEX METHOD : MxArray) :
    reorthOptionalAlpha nrm nlhs Q R NORMR INDEX none METHOD =
      reorthOptionalAlpha nrm nlhs Q R NORMR INDEX (some (1/2)) METHOD ∧
    reorthOptionalAlpha nrm nlhs Q R NORMR INDEX none METHOD =
      mexFunction nrm 6 nlhs
        ⟨Q, R, NORMR, INDEX, ⟨1, 1, [(1 : Scalar)/2]⟩, METHOD⟩ :=
  ⟨rfl, rfl⟩

/-- C1: the gateway's third output is `(double) inre * k` (line 141), not
the number of reorthogonalization passes performed.  On this concrete call
(two basis columns, empty index, so k = 2) the core performs one pass
(first ratio test passes, `nre = 1`) while the gateway returns 2 as the
third output — contradicting the gateway's own doc comment, "NRE is the
number of reorthogonalizations performed (1 or 2)". -/
theorem nre_output_is_inre_times_k :
    mexFunction sumSq 6 3
      ⟨⟨1, 2, [0, 0]⟩, ⟨1, 1, [1]⟩, ⟨1, 1, [1]⟩, ⟨0, 0, []⟩,
       ⟨1, 1, [1/2]⟩, ⟨1, 1, [0]⟩⟩ =
      MexResult.ok
        ⟨⟨1, 2, [0, 0]⟩, ⟨1, 1, [1]⟩, ⟨1, 1, [1]⟩, ⟨0, 0, []⟩,
         ⟨1, 1, [1/2]⟩, ⟨1, 1, [0]⟩⟩ ⟨[1], 1, some 2, 0⟩ ∧
    (mexCoreCall sumSq
      ⟨⟨1, 2, [0, 0]⟩, ⟨1, 1, [1]⟩, ⟨1, 1, [1]⟩, ⟨0, 0, []⟩,
       ⟨1, 1, [1/2]⟩, ⟨1, 1, [0]⟩⟩).2 = CoreRes.ok 1 1 := by
  exact ⟨by decide, by decide⟩

end Reorth
